import Mathlib

set_option maxRecDepth 4000

/-! Shallow embedding of the risu-insights inventory and diagnostics core.

The inventory model, selector engine and error reporting are translated from
`src/inventory.py` (the feature-complete iteration of the inventory module);
the diagnostic payload normalisation is translated from
`src/risu_insights/diagnostics.py` and `src/runner.py`.  Python strings are
modelled as Lean `String`, Python dicts (which preserve insertion order) as
ordered association lists, and Python integers as `Int`. -/

/-! ## Python string primitives -/

/-- Characters treated as whitespace by Python `str.strip` / `str.split`
(ASCII fragment). -/
def pyIsSpace (c : Char) : Bool :=
  c = ' ' || c = '\t' || c = '\n' || c = '\r' || c = '\x0b' || c = '\x0c'

/-- Remove trailing whitespace characters (helper for `str.strip`). -/
def dropTrail (l : List Char) : List Char :=
  (l.reverse.dropWhile pyIsSpace).reverse

/-- `str.strip()` on a character list. -/
def stripChars (l : List Char) : List Char :=
  dropTrail (l.dropWhile pyIsSpace)

/-- Python `str.strip()`. -/
def pyStrip (s : String) : String :=
  String.mk (stripChars s.data)

/-- Split a character list on whitespace runs, dropping empty pieces:
Python `str.split()` with no argument. -/
def splitWsAux : List Char → List Char → List (List Char)
  | [], acc => if acc = [] then [] else [acc.reverse]
  | c :: rest, acc =>
      if pyIsSpace c then
        if acc = [] then splitWsAux rest [] else acc.reverse :: splitWsAux rest []
      else splitWsAux rest (c :: acc)

/-- Python `str.split()` (whitespace separated words). -/
def pySplitWs (s : String) : List String :=
  (splitWsAux s.data []).map String.mk

/-- Split a character list at every occurrence of one of the separator
characters, keeping empty pieces: Python `re.split` with a character class. -/
def splitAnyAux (seps : List Char) : List Char → List Char → List (List Char)
  | [], acc => [acc.reverse]
  | c :: rest, acc =>
      if c ∈ seps then acc.reverse :: splitAnyAux seps rest []
      else splitAnyAux seps rest (c :: acc)

/-- Python `re.split(r"[,:]", s)`. -/
def splitCommaColon (s : String) : List String :=
  (splitAnyAux [',', ':'] s.data []).map String.mk

/-- Python `sep in s` for a single character. -/
def containsChar (c : Char) (s : String) : Bool :=
  s.data.contains c

/-- First whitespace-delimited token of a line: Python `line.split()[0]`
(defaulting to the empty string for an all-whitespace line). -/
def headToken (line : String) : String :=
  (pySplitWs line).headD ""

/-- Python `s.split("=", 1)` restricted to the case where `"="` occurs,
returning the stripped key/value pair that the inventory parser builds. -/
def splitEqOnce (s : String) : String × String :=
  let before := s.data.takeWhile (· ≠ '=')
  let after := (s.data.dropWhile (· ≠ '=')).tail
  (String.mk (stripChars before), String.mk (stripChars after))

/-- Python `token.startswith("!")`. -/
def startsBang (t : String) : Bool :=
  match t.data with
  | '!' :: _ => true
  | _ => false

/-- Python `token[1:]`. -/
def strDropOne (t : String) : String :=
  String.mk t.data.tail

/-- Python `s.startswith(p)` for general prefixes. -/
def strStartsWithB (s p : String) : Bool :=
  List.isPrefixOf p.data s.data

/-- Python `s.endswith(p)`. -/
def strEndsWithB (s p : String) : Bool :=
  List.isPrefixOf p.data.reverse s.data.reverse

/-- Python `section.split(":")[0]`. -/
def beforeColon (s : String) : String :=
  String.mk (s.data.takeWhile (· ≠ ':'))

/-- Python `", ".join(parts)` (generalised over the separator). -/
def joinSep (sep : String) : List String → String
  | [] => ""
  | [x] => x
  | x :: y :: ys => x ++ sep ++ joinSep sep (y :: ys)

/-- `", ".join` as used by the inventory error messages. -/
def joinComma (l : List String) : String :=
  joinSep ", " l

/-! ## Ordered association lists (Python `dict` with insertion order) -/

/-- First value bound to a key (Python `d.get(k)` / `d[k]`). -/
def lookupA {α : Type} (k : String) : List (String × α) → Option α
  | [] => none
  | (k', v) :: rest => if k' = k then some v else lookupA k rest

/-- Python `d.setdefault(k, dflt)` as a map transformation: insert the default
at the end when the key is absent. -/
def setdefaultA {α : Type} (k : String) (dflt : α) (m : List (String × α)) :
    List (String × α) :=
  if (lookupA k m).isSome then m else m ++ [(k, dflt)]

/-- Python `d[k] = v`: replace in place when present, append when absent. -/
def setValA {α : Type} (k : String) (v : α) : List (String × α) → List (String × α)
  | [] => [(k, v)]
  | (k', v') :: rest => if k' = k then (k, v) :: rest else (k', v') :: setValA k v rest

/-- Python `d.setdefault(k, dflt)` followed by an in-place update of the
stored value (covers `d.setdefault(k, []).append(x)` and friends). -/
def modifyValA {α : Type} (k : String) (dflt : α) (f : α → α) :
    List (String × α) → List (String × α)
  | [] => [(k, f dflt)]
  | (k', v) :: rest => if k' = k then (k', f v) :: rest else (k', v) :: modifyValA k dflt f rest

/-- Keys of the dict, in insertion order (Python `list(d.keys())`). -/
def keysA {α : Type} (m : List (String × α)) : List String :=
  m.map Prod.fst

/-- Merge `add` entries into `base`, later keys overriding in place
(Python `base.update(add)` for string-valued dicts). -/
def mergeVars (base add : List (String × String)) : List (String × String) :=
  add.foldl (fun b kv => setValA kv.1 kv.2 b) base

/-! ## Inventory model (src/inventory.py) -/

/-- `_dedupe` from src/inventory.py: drop repeated values, keeping the first
occurrence, tracked by an explicit `seen` accumulator. -/
def dedupeAux (seen : List String) : List String → List String
  | [] => []
  | v :: rest => if v ∈ seen then dedupeAux seen rest else v :: dedupeAux (v :: seen) rest

/-- `_dedupe(values)` from src/inventory.py. -/
def dedupe (values : List String) : List String :=
  dedupeAux [] values

/-- `InventorySummary` (src/inventory.py): hosts in first-seen order, plus the
group / variable dicts, all insertion ordered. -/
structure InventorySummary where
  hosts : List String
  groups : List (String × List String)
  group_vars : List (String × List (String × String))
  host_vars : List (String × List (String × String))
deriving Repr, DecidableEq

/-- `ResolvedHosts` (src/inventory.py). -/
structure ResolvedHosts where
  selector : String
  hosts : List String
  error : Option String
deriving Repr, DecidableEq

/-- `ResolvedHosts.validated` (src/inventory.py): true iff hosts are present
and the error slot is either empty or a partial-match warning. -/
def validatedB (r : ResolvedHosts) : Bool :=
  !r.hosts.isEmpty &&
    (match r.error with
     | none => true
     | some e => strStartsWithB e "Some selectors")

/-- `SECTION_RE.match(line)`: a line is a section header when, after leading
whitespace, it reads `[name]` with a nonempty bracket-free `name` and only
whitespace afterwards. -/
def sectionNameOf (line : String) : Option String :=
  match line.data.dropWhile pyIsSpace with
  | '[' :: rest =>
      let inner := rest.takeWhile (· ≠ ']')
      match rest.dropWhile (· ≠ ']') with
      | ']' :: tail =>
          if inner = [] then none
          else if tail.all pyIsSpace then some (String.mk inner) else none
      | _ => none
  | _ => none

/-- Mutable state of the `parse_inventory` line loop (src/inventory.py). -/
structure ParseSt where
  groups : List (String × List String)
  children : List (String × List String)
  hosts : List String
  group_vars : List (String × List (String × String))
  host_vars : List (String × List (String × String))
  current_group : Option String
  current_children : Option String
  current_vars_group : Option String
deriving Repr, DecidableEq

/-- Initial parser state. -/
def initSt : ParseSt :=
  { groups := [], children := [], hosts := [], group_vars := [], host_vars := [],
    current_group := none, current_children := none, current_vars_group := none }

/-- One iteration of the `parse_inventory` line loop (src/inventory.py,
lines 82-133). -/
def parseLine (st : ParseSt) (raw : String) : ParseSt :=
  let line := pyStrip raw
  if line = "" || strStartsWithB line "#" then st
  else
    match sectionNameOf line with
    | some sec =>
        if strEndsWithB sec ":children" then
          let parent := beforeColon sec
          { st with children := setdefaultA parent [] st.children,
                    current_group := none, current_children := some parent,
                    current_vars_group := none }
        else if strEndsWithB sec ":vars" then
          let vg := beforeColon sec
          { st with group_vars := setdefaultA vg [] st.group_vars,
                    current_group := none, current_children := none,
                    current_vars_group := some vg }
        else
          { st with groups := setdefaultA sec [] st.groups,
                    current_group := some sec, current_children := none,
                    current_vars_group := none }
    | none =>
        match st.current_children with
        | some parent =>
            { st with children := modifyValA parent [] (· ++ [headToken line]) st.children }
        | none =>
            match st.current_vars_group with
            | some vg =>
                if containsChar '=' line then
                  let kv := splitEqOnce line
                  { st with group_vars := modifyValA vg [] (setValA kv.1 kv.2) st.group_vars }
                else st
            | none =>
                let parts := pySplitWs line
                let host := parts.headD ""
                let target := st.current_group.getD "ungrouped"
                let assignments :=
                  parts.tail.foldl
                    (fun acc part =>
                      if containsChar '=' part then
                        let kv := splitEqOnce part
                        setValA kv.1 kv.2 acc
                      else acc) []
                { st with hosts := st.hosts ++ [host],
                          groups := modifyValA target [] (· ++ [host]) st.groups,
                          host_vars :=
                            if assignments = [] then st.host_vars
                            else modifyValA host [] (mergeVars · assignments) st.host_vars }

/-- State after feeding every line through `parseLine`. -/
def stOf (lines : List String) : ParseSt :=
  lines.foldl parseLine initSt

/-- Children resolution pass (src/inventory.py lines 135-140): walk the
children dict in insertion order, appending each child group's current hosts
to the parent and de-duplicating. -/
def resolveChildren (children : List (String × List String))
    (groups0 : List (String × List String)) : List (String × List String) :=
  children.foldl
    (fun gs pc =>
      let aggregate := pc.2.foldl (fun acc c => acc ++ (lookupA c gs).getD []) []
      let gs1 := setdefaultA pc.1 [] gs
      setValA pc.1 (dedupe ((lookupA pc.1 gs1).getD [] ++ aggregate)) gs1)
    groups0

/-- Group dict after children resolution, before the `all` synthesis step. -/
def groupsAfterChildren (lines : List String) : List (String × List String) :=
  resolveChildren (stOf lines).children (stOf lines).groups

/-- `parse_inventory` (src/inventory.py): line loop, children pass, `all`
synthesis, and final host list. -/
def parseInventory (lines : List String) : InventorySummary :=
  let st := stOf lines
  let gs0 := groupsAfterChildren lines
  let gs :=
    if (lookupA "all" gs0).isSome then gs0
    else setValA "all" (dedupe st.hosts) gs0
  { hosts := dedupe ((lookupA "all" gs).getD []),
    groups := gs,
    group_vars := st.group_vars,
    host_vars := st.host_vars }

/-! ## Shell-style wildcard matching (Python fnmatch) -/

/-- Decompose the tail of a `[...]` wildcard class: leading `!` negates, a
`]` in first position is a literal member, and the class runs to the next
`]`.  Returns `none` when the bracket is unterminated (then `[` is literal),
mirroring `fnmatch.translate`. -/
def splitBracket (cs : List Char) : Option (Bool × List Char × List Char) :=
  let p := match cs with
           | '!' :: t => (true, t)
           | _ => (false, cs)
  match p.2 with
  | [] => none
  | c0 :: t =>
      if (']' ∈ t) then
        some (p.1, c0 :: t.takeWhile (· ≠ ']'), (t.dropWhile (· ≠ ']')).tail)
      else none

/-- Membership of a character in a wildcard class, honouring `a-z` ranges
with a trailing `-` kept literal. -/
def matchClass : List Char → Char → Bool
  | a :: '-' :: b :: rest, c => (a ≤ c && c ≤ b) || matchClass rest c
  | a :: rest, c => (a = c) || matchClass rest c
  | [], _ => false

/-- Fueled glob matcher: `*`, `?` and `[...]` with shell semantics, as
produced by `fnmatch.translate`.  The fuel only bounds recursion depth; it is
always instantiated large enough to be irrelevant. -/
def globMatchF : Nat → List Char → List Char → Bool
  | 0, _, _ => false
  | _ + 1, [], name => name = []
  | fuel + 1, '*' :: ps, name =>
      globMatchF fuel ps name ||
        (match name with
         | [] => false
         | _ :: n' => globMatchF fuel ('*' :: ps) n')
  | fuel + 1, '?' :: ps, name =>
      match name with
      | [] => false
      | _ :: n' => globMatchF fuel ps n'
  | fuel + 1, '[' :: ps, name =>
      match splitBracket ps with
      | some br =>
          (match name with
           | [] => false
           | c :: n' => (matchClass br.2.1 c != br.1) && globMatchF fuel br.2.2 n')
      | none =>
          (match name with
           | [] => false
           | c :: n' => (c = '[') && globMatchF fuel ps n')
  | fuel + 1, p :: ps, name =>
      match name with
      | [] => false
      | c :: n' => (p = c) && globMatchF fuel ps n'

/-- Python `fnmatch.fnmatch(name, pattern)` (POSIX case semantics). -/
def fnmatchB (name pattern : String) : Bool :=
  globMatchF (pattern.data.length + name.data.length + 1) pattern.data name.data

/-! ## Selector engine (src/inventory.py lines 170-237) -/

/-- `_expand_token` (src/inventory.py lines 224-237). -/
def expandToken (token : String) (s : InventorySummary) : List String :=
  let token := pyStrip token
  if token = "" || token = "all" then s.hosts
  else
    match lookupA token s.groups with
    | some members => members
    | none =>
        if token ∈ s.hosts then [token]
        else
          let matched := s.hosts.filter (fun h => fnmatchB h token)
          if matched = [] && containsChar ' ' token then [] else matched

/-- Selector tokenization: split on `,` and `:`, strip, drop empties. -/
def tokensOf (selector : String) : List String :=
  ((splitCommaColon selector).map pyStrip).filter (· ≠ "")

/-- Inclusion tokens (those not starting with `!`). -/
def includeTokens (selector : String) : List String :=
  (tokensOf selector).filter (fun t => !startsBang t)

/-- Exclusion tokens, with the leading `!` stripped. -/
def excludeTokens (selector : String) : List String :=
  ((tokensOf selector).filter startsBang).map strDropOne

/-- Inclusion list after defaulting to `["all"]` when no inclusion token is
present (covers both the explicit default for pure-exclusion selectors and
the `includes or ["all"]` loop header). -/
def effectiveIncludes (selector : String) : List String :=
  if includeTokens selector = [] then ["all"] else includeTokens selector

/-- Concatenated expansion of the inclusion tokens, in selector order. -/
def expandedRaw (selector : String) (s : InventorySummary) : List String :=
  (effectiveIncludes selector).foldl (fun acc t => acc ++ expandToken t s) []

/-- Inclusion tokens whose expansion was empty (`unmatched_tokens`). -/
def unmatchedTokens (selector : String) (s : InventorySummary) : List String :=
  (effectiveIncludes selector).filter (fun t => expandToken t s = [])

/-- Union of the exclusion token expansions (`exclusion_set`); membership in
this list models membership in the Python set. -/
def exclusionList (selector : String) (s : InventorySummary) : List String :=
  (excludeTokens selector).foldl (fun acc t => acc ++ expandToken t s) []

/-- Included hosts after applying the exclusion filter. -/
def filteredHosts (selector : String) (s : InventorySummary) : List String :=
  if excludeTokens selector = [] then expandedRaw selector s
  else (expandedRaw selector s).filter (fun h => !decide (h ∈ exclusionList selector s))

/-- Final de-duplicated host list of the resolution. -/
def finalHosts (selector : String) (s : InventorySummary) : List String :=
  dedupe (filteredHosts selector s)

/-- Opening of the hard error message (src/inventory.py line 198). -/
def emBase (selector : String) : String :=
  "No hosts matched selector '" ++ selector ++ "'"

/-- Per-token suggestion step of the error message loop (src/inventory.py
lines 202-207): for an unmatched token containing a space, strip
`hosts`/`servers` occurrences and suggest the result when it names a
group. -/
def emSuggest (s : InventorySummary) (acc token : String) : String :=
  if containsChar ' ' token then
    let suggested :=
      pyStrip ((((token.replace " hosts" "").replace " servers" "").replace
        "hosts" "").replace "servers" "")
    if (lookupA suggested s.groups).isSome then
      acc ++ ". Did you mean '" ++ suggested ++ "' instead of '" ++ token ++ "'?"
    else acc
  else acc

/-- Error message after the unmatched tokens section (src/inventory.py
lines 199-207). -/
def emM1 (selector : String) (s : InventorySummary) : String :=
  if unmatchedTokens selector s = [] then emBase selector
  else
    (unmatchedTokens selector s).foldl (emSuggest s)
      (emBase selector ++ ". Unmatched tokens: " ++ joinComma (unmatchedTokens selector s))

/-- Error message after the space-without-comma hint (src/inventory.py
lines 208-209). -/
def emM2 (selector : String) (s : InventorySummary) : String :=
  if containsChar ' ' selector && !containsChar ',' selector then
    emM1 selector s ++ ". Note: Selectors with spaces are split. Use comma-separated groups like 'sles,webservers' or just the group name 'sles'"
  else emM1 selector s

/-- Error message after the available groups section (src/inventory.py
lines 210-211). -/
def emM3 (selector : String) (s : InventorySummary) : String :=
  if keysA s.groups ≠ [] then
    emM2 selector s ++ ". Available groups: " ++ joinComma (keysA s.groups)
  else emM2 selector s

/-- The `No hosts matched` hard error message (src/inventory.py
lines 195-214), built left to right exactly as the source appends to it;
the sample section shows the first 5 hosts (line 197). -/
def errorMessage (selector : String) (s : InventorySummary) : String :=
  if s.hosts.take 5 ≠ [] then
    emM3 selector s ++ ". Sample hosts: " ++ joinComma (s.hosts.take 5)
  else emM3 selector s

/-- The non-fatal partial-match warning (src/inventory.py lines 217-219). -/
def warningMessage (selector : String) (s : InventorySummary) : String :=
  "Some selectors didn't match: " ++ joinComma (unmatchedTokens selector s) ++
    ". Only matched hosts will be processed."

/-- `resolve_hosts` (src/inventory.py lines 170-221), over an already parsed
summary: the file loading step only resolves the inventory path. -/
def resolveHosts (selector : String) (s : InventorySummary) : ResolvedHosts :=
  let expanded := finalHosts selector s
  if expanded = [] then
    { selector := selector, hosts := [], error := some (errorMessage selector s) }
  else
    { selector := selector, hosts := expanded,
      error :=
        if unmatchedTokens selector s ≠ [] then some (warningMessage selector s)
        else none }

/-- `s` contains `needle` as a substring. -/
def strContainsSub (hay needle : String) : Prop :=
  ∃ p q : String, hay = p ++ needle ++ q

/-! ## Result normalisation (src/risu_insights/diagnostics.py, src/runner.py) -/

/-- `_derive_severity(rc)`: identical in src/risu_insights/diagnostics.py
(lines 127-137) and src/runner.py (lines 362-371). -/
def derive_severity (rc : Option Int) : String :=
  match rc with
  | none => "info"
  | some r =>
      if r = 0 then "info"
      else if r ≥ 20 then "critical"
      else if r ≥ 10 then "major"
      else if r ≥ 5 then "warning"
      else "minor"

/-- `_normalise_message(message)` / `_normalise(message)`: strip, then
truncate to 400 characters with a `...` suffix. -/
def normalise_message (message : String) : String :=
  let cleaned := pyStrip message
  if cleaned.length > 400 then String.mk (cleaned.data.take 397) ++ "..."
  else cleaned

/-- Python `a or b` for an optional string `a`: `None` and `""` fall through
to `b`. -/
def pyOrStr (a : Option String) (b : String) : String :=
  match a with
  | some s => if s = "" then b else s
  | none => b

/-- `pathlib.Path(p).stem`: last path component without its final suffix.
The rightmost dot (`name.rfind('.')`) separates the suffix only when it
lies strictly inside the name, i.e. `0 < i < len(name) - 1`. -/
def lastDotIdx (name : List Char) : Option Nat :=
  match (List.range name.length).foldl
      (fun acc i => if name.get? i = some '.' then some i else acc) none with
  | some i => if 0 < i && i < name.length - 1 then some i else none
  | none => none

/-- Final component of a POSIX path (`Path(p).name`). -/
def lastComponent (p : String) : List Char :=
  ((splitAnyAux ['/'] p.data []).filter (· ≠ [])).getLastD []

/-- `Path(p).stem`. -/
def pathStem (p : String) : String :=
  let name := lastComponent p
  match lastDotIdx name with
  | some i => String.mk (name.take i)
  | none => String.mk name

/-- The nested `result` object of one RISU check entry. -/
structure RisuCheckOutput where
  rc : Option Int
  out : Option String
  err : Option String
deriving Repr, DecidableEq

/-- One entry of the payload's `results` map (`plugin_data`).  A missing or
falsy `result` field is modelled as `none` and read as an empty object. -/
structure RisuPluginData where
  result : Option RisuCheckOutput
  plugin : Option String
  id : Option String
  name : Option String
  description : Option String
  category : Option String
  subcategory : Option String
  backend : Option String
  hash : Option String
deriving Repr, DecidableEq

/-- A RISU payload: the `results` map (keyed by check identifier, insertion
ordered) and the pass-through `metadata` map. -/
structure RisuPayload where
  results : List (String × RisuPluginData)
  metadata : List (String × String)
deriving Repr, DecidableEq

/-- `DiagnosticIssue` (src/risu_insights/diagnostics.py). -/
structure DiagnosticIssue where
  plugin : String
  name : String
  severity : String
  rc : Option Int
  message : String
  category : Option String
  subcategory : Option String
  metadata : List (String × Option String)
deriving Repr, DecidableEq

/-- `DiagnosticResult` (src/risu_insights/diagnostics.py): aggregated
diagnostics for one host.  `skipped` keeps the Python integer arithmetic. -/
structure DiagnosticResult where
  host : String
  total_checks : Nat
  passed : Nat
  failed : Nat
  skipped : Int
  issues : List DiagnosticIssue
  metadata : List (String × String)
deriving Repr, DecidableEq

/-- The `rc` of an entry, reading a missing/falsy `result` as `{}` . -/
def entryRc (pd : RisuPluginData) : Option Int :=
  (pd.result.getD ⟨none, none, none⟩).rc

/-- True when the entry counts as a pass: `rc in (0, None)`. -/
def entryPasses (e : String × RisuPluginData) : Bool :=
  match entryRc e.2 with
  | none => true
  | some r => r = 0

/-- The issue built for a failing entry by `parse_risu_payload`
(src/risu_insights/diagnostics.py lines 199-218). -/
def mkIssue (plugin_id : String) (pd : RisuPluginData) (rc : Option Int) : DiagnosticIssue :=
  let result := pd.result.getD ⟨none, none, none⟩
  let message := normalise_message (pyOrStr result.err (pyOrStr result.out (pyOrStr pd.description "")))
  let plugin_path := pyOrStr pd.plugin (pyOrStr pd.id plugin_id)
  { plugin := plugin_path,
    name := pyOrStr pd.name (pathStem plugin_path),
    severity := derive_severity rc,
    rc := rc,
    message := message,
    category := pd.category,
    subcategory := pd.subcategory,
    metadata := [("backend", pd.backend), ("hash", pd.hash)] }

/-- Loop body of `parse_risu_payload`: update the `(passed, failed, issues)`
accumulator with one `results` entry. -/
def parseStep (acc : Nat × Nat × List DiagnosticIssue) (e : String × RisuPluginData) :
    Nat × Nat × List DiagnosticIssue :=
  if entryPasses e then (acc.1 + 1, acc.2.1, acc.2.2)
  else (acc.1, acc.2.1 + 1, acc.2.2 ++ [mkIssue e.1 e.2 (entryRc e.2)])

/-- `parse_risu_payload(host, payload)` (src/risu_insights/diagnostics.py
lines 183-235). -/
def parse_risu_payload (host : String) (payload : RisuPayload) : DiagnosticResult :=
  let acc := payload.results.foldl parseStep (0, 0, [])
  let total_checks := payload.results.length
  { host := host,
    total_checks := total_checks,
    passed := acc.1,
    failed := acc.2.1,
    skipped := max ((total_checks : Int) - acc.1 - acc.2.1) 0,
    issues := acc.2.2,
    metadata := payload.metadata }

/-- `DiagnosticIssue` as defined in src/runner.py (no metadata field). -/
structure RunnerIssue where
  plugin : String
  name : String
  severity : String
  message : String
  rc : Option Int
  category : Option String
  subcategory : Option String
deriving Repr, DecidableEq

/-- `HostDiagnostics` (src/runner.py). -/
structure HostDiagnostics where
  host : String
  total_checks : Nat
  passed : Nat
  failed : Nat
  skipped : Int
  issues : List RunnerIssue
  metadata : List (String × String)
deriving Repr, DecidableEq

/-- The issue built by `DiagnosticsRunner._parse_payload`
(src/runner.py lines 335-346). -/
def mkRunnerIssue (plugin_id : String) (pd : RisuPluginData) (rc : Option Int) : RunnerIssue :=
  let result := pd.result.getD ⟨none, none, none⟩
  { plugin := pyOrStr pd.plugin plugin_id,
    name := pyOrStr pd.name plugin_id,
    severity := derive_severity rc,
    message := normalise_message (pyOrStr result.err (pyOrStr result.out (pyOrStr pd.description ""))),
    rc := rc,
    category := pd.category,
    subcategory := pd.subcategory }

/-- Loop body of `DiagnosticsRunner._parse_payload`. -/
def runnerParseStep (acc : Nat × Nat × List RunnerIssue) (e : String × RisuPluginData) :
    Nat × Nat × List RunnerIssue :=
  if entryPasses e then (acc.1 + 1, acc.2.1, acc.2.2)
  else (acc.1, acc.2.1 + 1, acc.2.2 ++ [mkRunnerIssue e.1 e.2 (entryRc e.2)])

/-- `DiagnosticsRunner._parse_payload(host, payload)` (src/runner.py
lines 320-359). -/
def runner_parse_payload (host : String) (payload : RisuPayload) : HostDiagnostics :=
  let acc := payload.results.foldl runnerParseStep (0, 0, [])
  let total_checks := payload.results.length
  { host := host,
    total_checks := total_checks,
    passed := acc.1,
    failed := acc.2.1,
    skipped := max ((total_checks : Int) - acc.1 - acc.2.1) 0,
    issues := acc.2.2,
    metadata := payload.metadata }

/-! ## Run aggregation status -/

/-- Report status computed by `DiagnosticsRunner.run` (src/runner.py
line 109): `"completed" if results and not errors else
("partial" if results else "failed")`. -/
def runReportStatus (results : List HostDiagnostics) (errors : List String) : String :=
  if ¬results.isEmpty ∧ errors.isEmpty then "completed"
  else if ¬results.isEmpty then "partial"
  else "failed"

/-- Report status computed by `_run_cli_fallback`
(src/risu_insights/diagnostics.py line 418):
`"completed" if results and not errors else "failed"`. -/
def cliFallbackStatus (results : List DiagnosticResult) (errors : List String) : String :=
  if ¬results.isEmpty ∧ errors.isEmpty then "completed" else "failed"

/-! ## JSON values and `json.loads` (integer-numeral fragment) -/

/-- JSON values.  Numbers are restricted to the integer numerals actually
produced by the RISU payloads; the parser rejects fractions and exponents
instead of producing floats. -/
inductive Json where
  | null : Json
  | bool : Bool → Json
  | num : Int → Json
  | str : String → Json
  | arr : List Json → Json
  | obj : List (String × Json) → Json
deriving Repr

/-- JSON whitespace. -/
def jsonWs (c : Char) : Bool :=
  c = ' ' || c = '\t' || c = '\n' || c = '\r'

/-- Skip JSON whitespace. -/
def skipWs (cs : List Char) : List Char :=
  cs.dropWhile jsonWs

/-- Single-character string escapes accepted by JSON. -/
def unescapeChar (e : Char) : Option Char :=
  if e = '"' then some '"'
  else if e = '\\' then some '\\'
  else if e = '/' then some '/'
  else if e = 'n' then some '\n'
  else if e = 't' then some '\t'
  else if e = 'r' then some '\r'
  else if e = 'b' then some '\x08'
  else if e = 'f' then some '\x0c'
  else none

/-- Value of a hexadecimal digit. -/
def hexVal (c : Char) : Option Nat :=
  if c.isDigit then some (c.toNat - 48)
  else if 'a' ≤ c && c ≤ 'f' then some (c.toNat - 87)
  else if 'A' ≤ c && c ≤ 'F' then some (c.toNat - 55)
  else none

/-- Numeric value of a digit run. -/
def digitsToNat (ds : List Char) : Nat :=
  ds.foldl (fun a c => a * 10 + (c.toNat - 48)) 0

/-- Parse a JSON integer numeral (no leading zeros, no fraction/exponent). -/
def jparseNat (cs : List Char) : Option (Nat × List Char) :=
  let digits := cs.takeWhile Char.isDigit
  let rest := cs.dropWhile Char.isDigit
  if digits = [] then none
  else if digits.length > 1 && digits.headD '0' = '0' then none
  else
    match rest with
    | '.' :: _ => none
    | 'e' :: _ => none
    | 'E' :: _ => none
    | _ => some (digitsToNat digits, rest)

/-- Parse the body of a JSON string literal after the opening quote. -/
def jparseStringLit : Nat → List Char → List Char → Option (String × List Char)
  | 0, _, _ => none
  | _ + 1, [], _ => none
  | fuel + 1, c :: rest, acc =>
      if c = '"' then some (String.mk acc.reverse, rest)
      else if c = '\\' then
        match rest with
        | 'u' :: h1 :: h2 :: h3 :: h4 :: rest2 =>
            match hexVal h1, hexVal h2, hexVal h3, hexVal h4 with
            | some a, some b, some d, some e =>
                jparseStringLit fuel rest2 (Char.ofNat (((a * 16 + b) * 16 + d) * 16 + e) :: acc)
            | _, _, _, _ => none
        | e :: rest2 =>
            match unescapeChar e with
            | some c' => jparseStringLit fuel rest2 (c' :: acc)
            | none => none
        | [] => none
      else if c.toNat < 32 then none
      else jparseStringLit fuel rest (c :: acc)

mutual

/-- Parse one JSON value (fueled recursive descent). -/
def jparseVal : Nat → List Char → Option (Json × List Char)
  | 0, _ => none
  | fuel + 1, cs =>
      match skipWs cs with
      | '\x7b' :: rest =>
          (match skipWs rest with
           | '\x7d' :: rest2 => some (Json.obj [], rest2)
           | _ => jparseMembers fuel rest [])
      | '[' :: rest =>
          (match skipWs rest with
           | ']' :: rest2 => some (Json.arr [], rest2)
           | _ => jparseItems fuel rest [])
      | '"' :: rest =>
          (match jparseStringLit (fuel + 1) rest [] with
           | some sv => some (Json.str sv.1, sv.2)
           | none => none)
      | 't' :: 'r' :: 'u' :: 'e' :: rest => some (Json.bool true, rest)
      | 'f' :: 'a' :: 'l' :: 's' :: 'e' :: rest => some (Json.bool false, rest)
      | 'n' :: 'u' :: 'l' :: 'l' :: rest => some (Json.null, rest)
      | '-' :: rest =>
          (match jparseNat rest with
           | some nv => some (Json.num (-(nv.1 : Int)), nv.2)
           | none => none)
      | c :: rest =>
          if c.isDigit then
            match jparseNat (c :: rest) with
            | some nv => some (Json.num (nv.1 : Int), nv.2)
            | none => none
          else none
      | [] => none

/-- Parse the members of a JSON object after `{` (at least one member). -/
def jparseMembers : Nat → List Char → List (String × Json) →
    Option (Json × List Char)
  | 0, _, _ => none
  | fuel + 1, cs, acc =>
      match skipWs cs with
      | '"' :: rest =>
          (match jparseStringLit (fuel + 1) rest [] with
           | some kv =>
               (match skipWs kv.2 with
                | ':' :: rest3 =>
                    (match jparseVal fuel rest3 with
                     | some vv =>
                         (match skipWs vv.2 with
                          | ',' :: rest5 => jparseMembers fuel rest5 (acc ++ [(kv.1, vv.1)])
                          | '\x7d' :: rest5 => some (Json.obj (acc ++ [(kv.1, vv.1)]), rest5)
                          | _ => none)
                     | none => none)
                | _ => none)
           | none => none)
      | _ => none

/-- Parse the items of a JSON array after `[` (at least one item). -/
def jparseItems : Nat → List Char → List Json → Option (Json × List Char)
  | 0, _, _ => none
  | fuel + 1, cs, acc =>
      match jparseVal fuel cs with
      | some vv =>
          (match skipWs vv.2 with
           | ',' :: rest => jparseItems fuel rest (acc ++ [vv.1])
           | ']' :: rest => some (Json.arr (acc ++ [vv.1]), rest)
           | _ => none)
      | none => none

end

/-- `json.loads(s)`: parse one JSON document, allowing surrounding
whitespace only; a decode error is `none`. -/
def jsonLoads (s : String) : Option Json :=
  match jparseVal (2 * s.data.length + 8) s.data with
  | some vr => if skipWs vr.2 = [] then some vr.1 else none
  | none => none

/-! ## Payload extraction (src/risu_insights/diagnostics.py lines 27-160) -/

/-- `SENTINEL_START`. -/
def SENTINEL_START : String := "RISU_RESULTS_JSON_START:"

/-- `SENTINEL_END`. -/
def SENTINEL_END : String := ":RISU_RESULTS_JSON_END"

/-- Index of the first occurrence of `needle` in `hay` (Python `str.find`,
with `none` for absence). -/
def findSubAux (needle : List Char) : List Char → Nat → Option Nat
  | [], i => if needle = [] then some i else none
  | c :: rest, i =>
      if List.isPrefixOf needle (c :: rest) then some i
      else findSubAux needle rest (i + 1)

/-- Python `needle in hay`. -/
def containsSubB (hay needle : String) : Bool :=
  (findSubAux needle.data hay.data 0).isSome

/-- The non-greedy `SENTINEL_START(.*?)SENTINEL_END` search: at the leftmost
start marker take the text up to the first end marker after it; if no end
marker follows, resume at the next start-marker candidate. -/
def sentinelSearch : Nat → List Char → Option (List Char)
  | 0, _ => none
  | fuel + 1, cs =>
      match findSubAux SENTINEL_START.data cs 0 with
      | none => none
      | some i =>
          let after := cs.drop (i + SENTINEL_START.data.length)
          match findSubAux SENTINEL_END.data after 0 with
          | some j => some (after.take j)
          | none => sentinelSearch fuel (cs.drop (i + 1))

/-- `_extract_payload(candidate)` (src/risu_insights/diagnostics.py
lines 148-160): sentinel-delimited extraction only; any failure is a soft
`none`. -/
def extract_payload (candidate : String) : Option Json :=
  if !containsSubB candidate SENTINEL_START || !containsSubB candidate SENTINEL_END then
    none
  else
    match sentinelSearch (candidate.data.length + 1) candidate.data with
    | none => none
    | some mid => jsonLoads (String.mk mid)

/-! ## Slurp output JSON recovery (src/runner.py lines 206-283) -/

/-- Brace-matching scan: starting at an opening brace, return the span up to
the matching closing brace, or `none` when it never closes. -/
def braceScanAux : List Char → Nat → List Char → Option (List Char)
  | [], _, _ => none
  | c :: rest, depth, acc =>
      if c = '\x7b' then braceScanAux rest (depth + 1) (c :: acc)
      else if c = '\x7d' then
        (if depth = 1 then some (c :: acc).reverse
         else braceScanAux rest (depth - 1) (c :: acc))
      else braceScanAux rest depth (c :: acc)

/-- Python `str.find(sub, start)` returning an absolute index. -/
def findFrom (needle : List Char) (cs : List Char) (start : Nat) : Option Nat :=
  match findSubAux needle (cs.drop start) 0 with
  | some j => some (start + j)
  | none => none

/-- Format 1 (lines 211-216): the stripped blob itself starts with `{` and
parses as JSON. -/
def slurpFormat1 (raw : String) : Option Json :=
  if strStartsWithB raw "\x7b" then jsonLoads raw else none

/-- Format 2 (lines 218-241): JSON object after the first `=>`. -/
def slurpFormat2 (raw : String) : Option Json :=
  if containsSubB raw "=>" then
    match findSubAux "=>".data raw.data 0 with
    | none => none
    | some i =>
        match findFrom ['\x7b'] raw.data i with
        | none => none
        | some j =>
            match braceScanAux (raw.data.drop j) 0 [] with
            | some span => jsonLoads (String.mk span)
            | none => none
  else none

/-- The single-quote character. -/
def squote : Char := Char.ofNat 39

/-- Length of the `stdout='...'` scan: stop at the first unescaped closing
quote; an immediately closing quote stops at length 0 (lines 246-252). -/
def quoteScanLen : List Char → Bool → Char → Nat
  | [], _, _ => 0
  | c :: rest, isFirst, prev =>
      if c = squote && (isFirst || prev ≠ '\\') then 0
      else 1 + quoteScanLen rest false c

/-- Format 3 (lines 243-258): single-line `stdout='...'` field, with
backslash escape post-processing before parsing. -/
def slurpFormat3 (raw : String) : Option Json :=
  if containsSubB raw "stdout='" then
    match findSubAux "stdout='".data raw.data 0 with
    | none => none
    | some i =>
        let rest := raw.data.drop (i + 8)
        let n := quoteScanLen rest true ' '
        if n > 0 then
          jsonLoads ((((String.mk (rest.take n)).replace "\\n" "\n").replace
            "\\'" "'").replace "\\\\" "\\")
        else none
  else none

/-- Format 4 (lines 260-280): brace-match from the first `{"` anywhere. -/
def slurpFormat4 (raw : String) : Option Json :=
  match findSubAux ['\x7b', '"'] raw.data 0 with
  | none => none
  | some j =>
      match braceScanAux (raw.data.drop j) 0 [] with
      | some span => jsonLoads (String.mk span)
      | none => none

/-- Python truthiness of a parsed JSON value (`if not slurp_output`). -/
def jsonTruthy : Json → Bool
  | Json.null => false
  | Json.bool b => b
  | Json.num n => n ≠ 0
  | Json.str s => s ≠ ""
  | Json.arr xs => !xs.isEmpty
  | Json.obj fs => !fs.isEmpty

/-- First truthy parse among the format attempts; each later format only
runs while no truthy value has been found, and a final falsy-or-missing
value raises (modelled as `none`). -/
def firstTruthyJson : List (Option Json) → Option Json
  | [] => none
  | none :: rest => firstTruthyJson rest
  | some v :: rest => if jsonTruthy v then some v else firstTruthyJson rest

/-- The JSON recovery cascade applied to the slurp output
(src/runner.py lines 206-283): strip, then try formats 1-4 in order. -/
def slurpFindJson (raw : String) : Option Json :=
  let stripped := pyStrip raw
  firstTruthyJson
    [slurpFormat1 stripped, slurpFormat2 stripped, slurpFormat3 stripped,
     slurpFormat4 stripped]

/-- The scenario E bare payload string `{"results":{}}`. -/
def bareResultsJson : String := "\x7b\"results\":\x7b\x7d\x7d"

/-- The scenario E sentinel-wrapped blob. -/
def sentinelBlob : String := SENTINEL_START ++ bareResultsJson ++ SENTINEL_END

/-- The parsed scenario E payload `{"results": {}}`. -/
def resultsEmptyPayload : Json := Json.obj [("results", Json.obj [])]

/-! ## Concrete fixtures -/

/-- Scenario A/B/C inventory text, line by line. -/
def demoLines : List String :=
  ["[web]", "a.example.com", "b.example.com", "[web:vars]", "role=frontend"]

/-- Parsed scenario inventory. -/
def demoSummary : InventorySummary := parseInventory demoLines

/-- An inventory that declares the group `all` explicitly, leaving `h2`
outside it. -/
def explicitAllLines : List String := ["[all]", "h1", "[web]", "h2"]

/-- Parsed explicit-`all` inventory. -/
def explicitAllSummary : InventorySummary := parseInventory explicitAllLines

/-- Scenario D payload:
`{"results":{"p1":{"result":{"rc":0}},"p2":{"result":{"rc":12,"err":"disk full"}}}}`. -/
def scenarioDPayload : RisuPayload :=
  { results :=
      [("p1", { result := some { rc := some 0, out := none, err := none },
                plugin := none, id := none, name := none, description := none,
                category := none, subcategory := none, backend := none, hash := none }),
       ("p2", { result := some { rc := some 12, out := none, err := some "disk full" },
                plugin := none, id := none, name := none, description := none,
                category := none, subcategory := none, backend := none, hash := none })],
    metadata := [] }

/-- A host record with one error alongside it, as produced when one host
succeeds and another fails in the same run. -/
def oneHostResult : DiagnosticResult :=
  { host := "h1", total_checks := 1, passed := 1, failed := 0, skipped := 0,
    issues := [], metadata := [] }

/-! ## Basic lemmas: de-duplication and association lists -/

theorem mem_dedupeAux (a : String) :
    ∀ (l seen : List String), a ∈ dedupeAux seen l ↔ a ∈ l ∧ a ∉ seen := by
  intro l
  induction l with
  | nil => intro seen; simp [dedupeAux]
  | cons v rest ih =>
      intro seen
      rw [dedupeAux]
      by_cases hv : v ∈ seen
      · rw [if_pos hv, ih]
        constructor
        · rintro ⟨h1, h2⟩
          exact ⟨List.mem_cons_of_mem v h1, h2⟩
        · rintro ⟨h1, h2⟩
          rcases List.mem_cons.mp h1 with rfl | h1
          · exact absurd hv h2
          · exact ⟨h1, h2⟩
      · rw [if_neg hv]
        constructor
        · intro h
          rcases List.mem_cons.mp h with rfl | h
          · exact ⟨List.mem_cons_self a rest, hv⟩
          · obtain ⟨h1, h2⟩ := (ih (v :: seen)).mp h
            exact ⟨List.mem_cons_of_mem v h1, fun hs => h2 (List.mem_cons_of_mem v hs)⟩
        · rintro ⟨h1, h2⟩
          rcases List.mem_cons.mp h1 with rfl | h1
          · exact List.mem_cons_self a _
          · by_cases hav : a = v
            · subst hav; exact List.mem_cons_self a _
            · refine List.mem_cons_of_mem v ((ih (v :: seen)).mpr ⟨h1, ?_⟩)
              intro hs
              rcases List.mem_cons.mp hs with h | h
              · exact hav h
              · exact h2 h

theorem mem_dedupe (a : String) (l : List String) : a ∈ dedupe l ↔ a ∈ l := by
  simp [dedupe, mem_dedupeAux]

theorem nodup_dedupeAux : ∀ (l seen : List String), (dedupeAux seen l).Nodup := by
  intro l
  induction l with
  | nil => intro seen; simp [dedupeAux]
  | cons v rest ih =>
      intro seen
      by_cases hv : v ∈ seen
      · simpa [dedupeAux, if_pos hv] using ih seen
      · rw [dedupeAux, if_neg hv]
        refine List.nodup_cons.mpr ⟨?_, ih (v :: seen)⟩
        intro hmem
        exact ((mem_dedupeAux v rest (v :: seen)).mp hmem).2 (List.mem_cons_self v seen)

theorem nodup_dedupe (l : List String) : (dedupe l).Nodup :=
  nodup_dedupeAux l []

theorem dedupeAux_eq_self : ∀ (l seen : List String), l.Nodup →
    (∀ x ∈ l, x ∉ seen) → dedupeAux seen l = l := by
  intro l
  induction l with
  | nil => intro seen _ _; rfl
  | cons v rest ih =>
      intro seen hnd hout
      rw [dedupeAux, if_neg (hout v (List.mem_cons_self v rest))]
      congr 1
      refine ih (v :: seen) (List.nodup_cons.mp hnd).2 ?_
      intro x hx hmem
      rcases List.mem_cons.mp hmem with rfl | hmem
      · exact (List.nodup_cons.mp hnd).1 hx
      · exact hout x (List.mem_cons_of_mem v hx) hmem

theorem dedupe_eq_self_of_nodup (l : List String) (h : l.Nodup) : dedupe l = l :=
  dedupeAux_eq_self l [] h (by simp)

theorem dedupe_idem (l : List String) : dedupe (dedupe l) = dedupe l :=
  dedupe_eq_self_of_nodup _ (nodup_dedupe l)

theorem lookupA_mem {α : Type} (k : String) (v : α) :
    ∀ m : List (String × α), lookupA k m = some v → (k, v) ∈ m := by
  intro m
  induction m with
  | nil => intro h; simp [lookupA] at h
  | cons p rest ih =>
      intro h
      rw [lookupA] at h
      split at h
      · next heq => cases h; exact heq ▸ List.mem_cons_self p rest
      · exact List.mem_cons_of_mem p (ih h)

theorem lookupA_setValA {α : Type} (k : String) (v : α) :
    ∀ m : List (String × α), lookupA k (setValA k v m) = some v := by
  intro m
  induction m with
  | nil => simp [setValA, lookupA]
  | cons p rest ih =>
      rw [setValA]
      split
      · simp [lookupA]
      · next hne => rw [lookupA, if_neg hne]; exact ih

theorem mem_setValA {α : Type} (k : String) (v : α) (p : String × α) :
    ∀ m : List (String × α), p ∈ setValA k v m → p = (k, v) ∨ p ∈ m := by
  intro m
  induction m with
  | nil => intro h; simp [setValA] at h; exact Or.inl h
  | cons q rest ih =>
      intro h
      rw [setValA] at h
      split at h
      · rcases List.mem_cons.mp h with rfl | h
        · exact Or.inl rfl
        · exact Or.inr (List.mem_cons_of_mem q h)
      · rcases List.mem_cons.mp h with rfl | h
        · exact Or.inr (List.mem_cons_self q rest)
        · rcases ih h with h | h
          · exact Or.inl h
          · exact Or.inr (List.mem_cons_of_mem q h)

theorem mem_setdefaultA {α : Type} (k : String) (d : α) (p : String × α)
    (m : List (String × α)) (h : p ∈ setdefaultA k d m) : p ∈ m ∨ p = (k, d) := by
  rw [setdefaultA] at h
  split at h
  · exact Or.inl h
  · rcases List.mem_append.mp h with h | h
    · exact Or.inl h
    · exact Or.inr (by simpa using h)

theorem mem_modifyValA {α : Type} (k : String) (d : α) (f : α → α) (p : String × α) :
    ∀ m : List (String × α), p ∈ modifyValA k d f m →
      p ∈ m ∨ p = (k, f d) ∨ ∃ v, (k, v) ∈ m ∧ p = (k, f v) := by
  intro m
  induction m with
  | nil => intro h; simp [modifyValA] at h; exact Or.inr (Or.inl h)
  | cons q rest ih =>
      intro h
      rw [modifyValA] at h
      split at h
      · next heq =>
          rcases List.mem_cons.mp h with rfl | h
          · exact Or.inr (Or.inr ⟨q.2, by simp [← heq], by simp [heq]⟩)
          · exact Or.inl (List.mem_cons_of_mem q h)
      · rcases List.mem_cons.mp h with rfl | h
        · exact Or.inl (List.mem_cons_self q rest)
        · rcases ih h with h | h | ⟨v, hv, rfl⟩
          · exact Or.inl (List.mem_cons_of_mem q h)
          · exact Or.inr (Or.inl h)
          · exact Or.inr (Or.inr ⟨v, List.mem_cons_of_mem q hv, rfl⟩)

theorem mem_foldl_append {α β : Type} (f : β → List α) (x : α) :
    ∀ (l : List β) (init : List α),
      x ∈ l.foldl (fun acc t => acc ++ f t) init ↔ x ∈ init ∨ ∃ t ∈ l, x ∈ f t := by
  intro l
  induction l with
  | nil => intro init; simp
  | cons t rest ih =>
      intro init
      rw [List.foldl_cons, ih]
      simp only [List.mem_append, List.mem_cons]
      constructor
      · rintro ((h | h) | ⟨u, hu, hx⟩)
        · exact Or.inl h
        · exact Or.inr ⟨t, Or.inl rfl, h⟩
        · exact Or.inr ⟨u, Or.inr hu, hx⟩
      · rintro (h | ⟨u, rfl | hu, hx⟩)
        · exact Or.inl (Or.inl h)
        · exact Or.inl (Or.inr hx)
        · exact Or.inr ⟨u, hu, hx⟩

/-! ## Selector engine lemmas -/

theorem expandToken_subset (s : InventorySummary)
    (hsub : ∀ p ∈ s.groups, ∀ h ∈ p.2, h ∈ s.hosts) (t : String) :
    ∀ h ∈ expandToken t s, h ∈ s.hosts := by
  intro h hh
  rw [expandToken] at hh
  split at hh
  · exact hh
  · split at hh
    · next members hlook =>
        exact hsub _ (lookupA_mem _ _ _ hlook) h hh
    · split at hh
      · next hmem => rcases List.mem_singleton.mp hh with rfl; exact hmem
      · dsimp only at hh
        split at hh
        · simp at hh
        · exact (List.mem_filter.mp hh).1

theorem mem_expandedRaw (selector : String) (s : InventorySummary) (x : String) :
    x ∈ expandedRaw selector s ↔
      ∃ t ∈ effectiveIncludes selector, x ∈ expandToken t s := by
  rw [expandedRaw, mem_foldl_append]
  simp

theorem resolveHosts_hosts (selector : String) (s : InventorySummary) :
    (resolveHosts selector s).hosts = finalHosts selector s := by
  rw [resolveHosts]
  split
  · next h => exact h.symm
  · rfl

theorem finalHosts_subset (s : InventorySummary)
    (hsub : ∀ p ∈ s.groups, ∀ h ∈ p.2, h ∈ s.hosts) (selector : String) :
    ∀ h ∈ finalHosts selector s, h ∈ s.hosts := by
  intro h hh
  rw [finalHosts] at hh
  rw [mem_dedupe] at hh
  rw [filteredHosts] at hh
  have hh' : h ∈ expandedRaw selector s := by
    split at hh
    · exact hh
    · exact (List.mem_filter.mp hh).1
  obtain ⟨t, _, hx⟩ := (mem_expandedRaw selector s h).mp hh'
  exact expandToken_subset s hsub t h hx

/-- C1 (amended): for every selector and every inventory model,
`resolve_hosts` returns a duplicate-free host list; whenever the model's
group members all appear in the host list (as is the case for every
inventory in which the synthesized `all` group subsumes every group), the
returned hosts are moreover drawn from the model's hosts. -/
theorem c1_resolve_nodup_subset (s : InventorySummary) (selector : String) :
    (resolveHosts selector s).hosts.Nodup ∧
      ((∀ p ∈ s.groups, ∀ h ∈ p.2, h ∈ s.hosts) →
        ∀ h ∈ (resolveHosts selector s).hosts, h ∈ s.hosts) := by
  rw [resolveHosts_hosts]
  exact ⟨nodup_dedupe _, fun hsub => finalHosts_subset s hsub selector⟩

/-- C1 counterexample: in an inventory declaring `[all]` with `h1` and
`[web]` with `h2`, resolving `"web"` yields `h2`, which is not in
`model.hosts = [h1]`. -/
theorem c1_counterexample :
    ¬ ∀ h ∈ (resolveHosts "web" explicitAllSummary).hosts,
        h ∈ explicitAllSummary.hosts := by decide

/-- C1 witness at the scenario inventory and an exclusion selector. -/
theorem c1_witness :
    (resolveHosts "web,!a.example.com" demoSummary).hosts.Nodup ∧
      "b.example.com" ∈ demoSummary.hosts :=
  ⟨(c1_resolve_nodup_subset demoSummary "web,!a.example.com").1,
   (c1_resolve_nodup_subset demoSummary "web,!a.example.com").2 (by decide)
     "b.example.com" (by decide)⟩

theorem expandToken_all (s : InventorySummary) : expandToken "all" s = s.hosts := by
  simp [expandToken, show pyStrip "all" = "all" from by decide]

theorem resolveHosts_all_hosts (s : InventorySummary)
    (hd : dedupe s.hosts = s.hosts) : (resolveHosts "all" s).hosts = s.hosts := by
  have hfin : finalHosts "all" s = s.hosts := by
    rw [finalHosts, filteredHosts,
      show excludeTokens "all" = [] from by decide, if_pos rfl, expandedRaw,
      show effectiveIncludes "all" = ["all"] from by decide]
    simpa [expandToken_all] using hd
  rw [resolveHosts_hosts, hfin]

/-- C2: `resolve_hosts("all")` returns exactly the parsed model's host list,
in order (also when the inventory is empty, where both are `[]`). -/
theorem c2_resolve_all_exact (lines : List String) :
    (resolveHosts "all" (parseInventory lines)).hosts = (parseInventory lines).hosts := by
  apply resolveHosts_all_hosts
  exact dedupe_eq_self_of_nodup _ (nodup_dedupe _)

/-- C2 witness at the scenario inventory. -/
theorem c2_witness :
    (resolveHosts "all" (parseInventory demoLines)).hosts =
      (parseInventory demoLines).hosts :=
  c2_resolve_all_exact demoLines

/-! ## Parser invariant: group members come from host lines -/

theorem parseLine_inv (st : ParseSt) (raw : String)
    (hinv : ∀ p ∈ st.groups, ∀ h ∈ p.2, h ∈ st.hosts) :
    ∀ p ∈ (parseLine st raw).groups, ∀ h ∈ p.2, h ∈ (parseLine st raw).hosts := by
  rw [parseLine]
  split
  · exact hinv
  · split
    · split
      · exact hinv
      · split
        · exact hinv
        · intro p hp h hh
          rcases mem_setdefaultA _ _ _ _ hp with hp | rfl
          · exact hinv p hp h hh
          · simp at hh
    · split
      · exact hinv
      · split
        · split
          · exact hinv
          · exact hinv
        · dsimp only
          intro p hp h hh
          rcases mem_modifyValA _ _ _ _ _ hp with hp | rfl | ⟨v, hv, rfl⟩
          · exact List.mem_append_left _ (hinv p hp h hh)
          · simp only [List.nil_append] at hh
            exact List.mem_append_right _ hh
          · rcases List.mem_append.mp hh with hh | hh
            · exact List.mem_append_left _ (hinv _ hv h hh)
            · exact List.mem_append_right _ hh

theorem foldl_parseLine_inv :
    ∀ (lines : List String) (st : ParseSt),
      (∀ p ∈ st.groups, ∀ h ∈ p.2, h ∈ st.hosts) →
      ∀ p ∈ (lines.foldl parseLine st).groups, ∀ h ∈ p.2,
        h ∈ (lines.foldl parseLine st).hosts := by
  intro lines
  induction lines with
  | nil => intro st h; exact h
  | cons x rest ih =>
      intro st h
      exact ih (parseLine st x) (parseLine_inv st x h)

theorem stOf_inv (lines : List String) :
    ∀ p ∈ (stOf lines).groups, ∀ h ∈ p.2, h ∈ (stOf lines).hosts :=
  foldl_parseLine_inv lines initSt (by intro p hp; simp [initSt] at hp)

theorem resolveChildren_inv :
    ∀ (children gs : List (String × List String)) (hostsAcc : List String),
      (∀ p ∈ gs, ∀ h ∈ p.2, h ∈ hostsAcc) →
      ∀ p ∈ resolveChildren children gs, ∀ h ∈ p.2, h ∈ hostsAcc := by
  intro children
  induction children with
  | nil => intro gs hostsAcc hinv; exact hinv
  | cons pc rest ih =>
      intro gs hostsAcc hinv
      rw [resolveChildren, List.foldl_cons]
      rw [show ∀ g0, rest.foldl
          (fun gs pc =>
            let aggregate := pc.2.foldl (fun acc c => acc ++ (lookupA c gs).getD []) []
            let gs1 := setdefaultA pc.1 [] gs
            setValA pc.1 (dedupe ((lookupA pc.1 gs1).getD [] ++ aggregate)) gs1) g0 =
          resolveChildren rest g0 from fun _ => rfl]
      apply ih
      dsimp only
      intro p hp h hh
      have hinv1 : ∀ p ∈ setdefaultA pc.1 [] gs, ∀ h ∈ p.2, h ∈ hostsAcc := by
        intro q hq x hx
        rcases mem_setdefaultA _ _ _ _ hq with hq | rfl
        · exact hinv q hq x hx
        · simp at hx
      rcases mem_setValA _ _ _ _ hp with rfl | hp
      · rw [mem_dedupe] at hh
        rcases List.mem_append.mp hh with hh | hh
        · rcases hl : lookupA pc.1 (setdefaultA pc.1 [] gs) with _ | v
          · rw [hl] at hh; simp at hh
          · rw [hl] at hh
            exact hinv1 _ (lookupA_mem _ _ _ hl) h hh
        · obtain ⟨c, _, hc⟩ := (mem_foldl_append (fun c => (lookupA c gs).getD []) h pc.2 []).mp hh
              |>.resolve_left (by simp)
            
          rcases hl : lookupA c gs with _ | v
          · rw [hl] at hc; simp at hc
          · rw [hl] at hc
            exact hinv _ (lookupA_mem _ _ _ hl) h hc
      · exact hinv1 p hp h hh

theorem parseInventory_groups_explicitAllAbsent (lines : List String)
    (hall : lookupA "all" (groupsAfterChildren lines) = none) :
    (parseInventory lines).groups =
      setValA "all" (dedupe (stOf lines).hosts) (groupsAfterChildren lines) := by
  simp only [parseInventory, hall, Option.isSome_none, Bool.false_eq_true, if_false]

/-- C3 (amended): for every inventory text accepted by the parser, the host
list is duplicate-free; and whenever no section declares the group `all`
(neither `[all]` nor `[all:children]`), the parsed model's `all` group
contains every member of every group.  (The superset property fails when
`[all]` is declared explicitly.) -/
theorem c3_all_superset_nodup (lines : List String) :
    (parseInventory lines).hosts.Nodup ∧
      (lookupA "all" (groupsAfterChildren lines) = none →
        ∀ p ∈ (parseInventory lines).groups, ∀ h ∈ p.2,
          h ∈ (lookupA "all" (parseInventory lines).groups).getD []) := by
  refine ⟨nodup_dedupe _, ?_⟩
  intro hall p hp h hh
  have hgroups := parseInventory_groups_explicitAllAbsent lines hall
  have hlook : lookupA "all" (parseInventory lines).groups =
      some (dedupe (stOf lines).hosts) := by
    rw [hgroups]; exact lookupA_setValA "all" _ _
  have hinv0 : ∀ p ∈ groupsAfterChildren lines, ∀ h ∈ p.2, h ∈ (stOf lines).hosts :=
    resolveChildren_inv (stOf lines).children (stOf lines).groups (stOf lines).hosts
      (stOf_inv lines)
  rw [hlook]
  show h ∈ dedupe (stOf lines).hosts
  rw [hgroups] at hp
  rcases mem_setValA _ _ _ _ hp with rfl | hp
  · exact hh
  · exact (mem_dedupe h _).mpr (hinv0 p hp h hh)

/-- C3 counterexample: with an explicit `[all]` section holding only `h1`,
the parsed `all` group does not contain the `web` member `h2`. -/
theorem c3_counterexample :
    ¬ ∀ p ∈ explicitAllSummary.groups, ∀ h ∈ p.2,
        h ∈ (lookupA "all" explicitAllSummary.groups).getD [] := by decide

/-- C3 witness at the scenario inventory. -/
theorem c3_witness :
    (parseInventory demoLines).hosts.Nodup ∧
      "a.example.com" ∈ (lookupA "all" (parseInventory demoLines).groups).getD [] :=
  ⟨(c3_all_superset_nodup demoLines).1,
   (c3_all_superset_nodup demoLines).2 (by decide)
     ("web", ["a.example.com", "b.example.com"]) (by decide) "a.example.com" (by decide)⟩

/-! ## Tokenizer lemmas for well-behaved group names -/

theorem splitAnyAux_sepFree (seps : List Char) :
    ∀ (l : List Char), (∀ c ∈ l, c ∉ seps) →
      ∀ acc, splitAnyAux seps l acc = [acc.reverse ++ l] := by
  intro l
  induction l with
  | nil => intro _ acc; simp [splitAnyAux]
  | cons c rest ih =>
      intro h acc
      rw [splitAnyAux, if_neg (h c (List.mem_cons_self c rest))]
      rw [ih (fun x hx => h x (List.mem_cons_of_mem c hx)) (c :: acc)]
      simp

theorem splitAnyAux_append_sep (seps : List Char) (sep : Char) (hsep : sep ∈ seps) :
    ∀ (pre : List Char), (∀ c ∈ pre, c ∉ seps) → ∀ (rest : List Char) (acc : List Char),
      splitAnyAux seps (pre ++ sep :: rest) acc =
        (acc.reverse ++ pre) :: splitAnyAux seps rest [] := by
  intro pre
  induction pre with
  | nil => intro _ rest acc; rw [List.nil_append, splitAnyAux, if_pos hsep]; simp
  | cons c pre' ih =>
      intro h rest acc
      rw [List.cons_append, splitAnyAux, if_neg (h c (List.mem_cons_self c pre'))]
      rw [ih (fun x hx => h x (List.mem_cons_of_mem c hx)) rest (c :: acc)]
      simp

theorem stripChars_data_of_pyStrip_eq (g : String) (h : pyStrip g = g) :
    stripChars g.data = g.data := congrArg String.data h

theorem dropLead_eq_of_stripChars_eq (l : List Char) (h : stripChars l = l) :
    l.dropWhile pyIsSpace = l := by
  have h1 : (l.dropWhile pyIsSpace).length ≤ l.length :=
    (List.dropWhile_suffix pyIsSpace).length_le
  have h2 : (dropTrail (l.dropWhile pyIsSpace)).length ≤ (l.dropWhile pyIsSpace).length := by
    rw [dropTrail]
    simpa using (List.dropWhile_suffix (l := (l.dropWhile pyIsSpace).reverse) pyIsSpace).length_le
  rw [stripChars] at h
  have hlen : (l.dropWhile pyIsSpace).length = l.length := by
    have := congrArg List.length h
    omega
  exact (List.dropWhile_suffix pyIsSpace).eq_of_length hlen

theorem dropTrail_eq_of_stripChars_eq (l : List Char) (h : stripChars l = l) :
    dropTrail l = l := by
  have hd := dropLead_eq_of_stripChars_eq l h
  rw [stripChars, hd] at h
  exact h

theorem stripChars_bang (l : List Char) (h : stripChars l = l) :
    stripChars ('!' :: l) = '!' :: l := by
  have hd : ('!' :: l).dropWhile pyIsSpace = '!' :: l :=
    List.dropWhile_cons_of_neg (by decide)
  rw [stripChars, hd, dropTrail, List.reverse_cons]
  have htr := dropTrail_eq_of_stripChars_eq l h
  rw [dropTrail] at htr
  have hrev : l.reverse.dropWhile pyIsSpace = l.reverse := by
    have := congrArg List.reverse htr
    simpa using this
  rcases hl : l.reverse with _ | ⟨c, t⟩
  · have hlnil : l = [] := by simpa using hl
    subst hlnil
    decide
  · rw [hl] at hrev
    have hc : ¬ pyIsSpace c = true := by
      intro hc
      rw [List.dropWhile_cons_of_pos hc] at hrev
      have := congrArg List.length hrev
      have hle : (t.dropWhile pyIsSpace).length ≤ t.length :=
        (List.dropWhile_suffix pyIsSpace).length_le
      simp at this
      omega
    rw [List.cons_append, List.dropWhile_cons_of_neg hc]
    have : ((c :: t) ++ ['!']).reverse = '!' :: l := by
      rw [← hl]
      simp
    simpa using this

theorem pyStrip_bangCons (g : String) (h : pyStrip g = g) :
    pyStrip (String.mk ('!' :: g.data)) = String.mk ('!' :: g.data) := by
  rw [pyStrip]
  exact congrArg String.mk (stripChars_bang g.data (stripChars_data_of_pyStrip_eq g h))

theorem mk_data_eq (g : String) : String.mk g.data = g := by
  cases g; rfl

theorem tokensOf_sepFree (g : String)
    (hchars : ∀ c ∈ g.data, c ∉ ([',', ':'] : List Char))
    (hstrip : pyStrip g = g) (hne : g ≠ "") : tokensOf g = [g] := by
  rw [tokensOf, splitCommaColon, splitAnyAux_sepFree _ _ hchars []]
  simp only [List.reverse_nil, List.nil_append, List.map_cons, List.map_nil, mk_data_eq]
  rw [hstrip]
  simp [hne]

theorem tokensOf_allBang (g : String)
    (hchars : ∀ c ∈ g.data, c ∉ ([',', ':'] : List Char))
    (hstrip : pyStrip g = g) :
    tokensOf ("all,!" ++ g) = ["all", String.mk ('!' :: g.data)] := by
  have hdata : ("all,!" ++ g).data = ['a', 'l', 'l'] ++ ',' :: '!' :: g.data := by
    rw [String.data_append]; rfl
  have hbangfree : ∀ c ∈ '!' :: g.data, c ∉ ([',', ':'] : List Char) := by
    intro c hc
    rcases List.mem_cons.mp hc with rfl | hc
    · decide
    · exact hchars c hc
  rw [tokensOf, splitCommaColon, hdata,
    splitAnyAux_append_sep [',', ':'] ',' (by decide) ['a', 'l', 'l'] (by decide) _ [],
    splitAnyAux_sepFree _ _ hbangfree []]
  simp only [List.reverse_nil, List.nil_append, List.map_cons, List.map_nil]
  rw [List.filter, List.filter, List.filter]
  rw [show String.mk ['a', 'l', 'l'] = "all" from rfl,
    show pyStrip "all" = "all" from by decide, pyStrip_bangCons g hstrip]
  have hne2 : (String.mk ('!' :: g.data) ≠ "") := by
    intro hcon
    exact absurd (congrArg String.data hcon) (by simp)
  simp [hne2]

/-! ## C4: exclusion/union algebra -/

theorem includeTokens_allBang (g : String)
    (hchars : ∀ c ∈ g.data, c ∉ ([',', ':'] : List Char))
    (hstrip : pyStrip g = g) : includeTokens ("all,!" ++ g) = ["all"] := by
  rw [includeTokens, tokensOf_allBang g hchars hstrip]
  rfl

theorem excludeTokens_allBang (g : String)
    (hchars : ∀ c ∈ g.data, c ∉ ([',', ':'] : List Char))
    (hstrip : pyStrip g = g) : excludeTokens ("all,!" ++ g) = [g] := by
  rw [excludeTokens, tokensOf_allBang g hchars hstrip]
  show [strDropOne (String.mk ('!' :: g.data))] = [g]
  rw [strDropOne]
  show [String.mk g.data] = [g]
  rw [mk_data_eq]

theorem resolveHosts_allBang_hosts (g : String) (s : InventorySummary)
    (hchars : ∀ c ∈ g.data, c ∉ ([',', ':'] : List Char))
    (hstrip : pyStrip g = g) :
    (resolveHosts ("all,!" ++ g) s).hosts =
      dedupe (s.hosts.filter (fun h => !decide (h ∈ expandToken g s))) := by
  rw [resolveHosts_hosts, finalHosts, filteredHosts,
    excludeTokens_allBang g hchars hstrip]
  rw [if_neg (by simp)]
  rw [expandedRaw, effectiveIncludes, includeTokens_allBang g hchars hstrip]
  rw [if_neg (by simp)]
  rw [List.foldl_cons, List.foldl_nil, List.nil_append, expandToken_all]
  rw [exclusionList, excludeTokens_allBang g hchars hstrip]
  rw [List.foldl_cons, List.foldl_nil, List.nil_append]

theorem resolveHosts_single_hosts (g : String) (s : InventorySummary)
    (hchars : ∀ c ∈ g.data, c ∉ ([',', ':'] : List Char))
    (hbang : startsBang g = false)
    (hstrip : pyStrip g = g) (hne : g ≠ "") :
    (resolveHosts g s).hosts = dedupe (expandToken g s) := by
  have htok : tokensOf g = [g] := tokensOf_sepFree g hchars hstrip hne
  have hinc : includeTokens g = [g] := by
    rw [includeTokens, htok, List.filter, hbang]
    rfl
  have hexc : excludeTokens g = [] := by
    rw [excludeTokens, htok, List.filter, hbang]
    rfl
  rw [resolveHosts_hosts, finalHosts, filteredHosts, hexc, if_pos rfl,
    expandedRaw, effectiveIncludes, hinc]
  rw [if_neg (by simp), List.foldl_cons, List.foldl_nil, List.nil_append]

theorem expandToken_group (g : String) (s : InventorySummary) (members : List String)
    (hlook : lookupA g s.groups = some members)
    (hstrip : pyStrip g = g) (hne : g ≠ "") (hall : g ≠ "all") :
    expandToken g s = members := by
  rw [expandToken, hstrip]
  rw [if_neg (by simp [hne, hall]), hlook]

/-- C4 (amended): for every inventory model whose group members all appear
in the model's hosts (the synthesized-`all` situation) and every group name
`g` that the selector tokenizer keeps intact (no `,`/`:` characters, no
leading `!`, no surrounding whitespace, nonempty), the union of
`resolve_hosts("all,!g").hosts` and `resolve_hosts(g).hosts` equals
`resolve_hosts("all").hosts` as a set. -/
theorem c4_exclusion_union (s : InventorySummary) (g : String) (members : List String)
    (hsub : ∀ p ∈ s.groups, ∀ h ∈ p.2, h ∈ s.hosts)
    (hd : dedupe s.hosts = s.hosts)
    (hlook : lookupA g s.groups = some members)
    (hchars : ∀ c ∈ g.data, c ∉ ([',', ':'] : List Char))
    (hbang : startsBang g = false)
    (hstrip : pyStrip g = g)
    (hne : g ≠ "") :
    ∀ x, (x ∈ (resolveHosts ("all,!" ++ g) s).hosts ∨
          x ∈ (resolveHosts g s).hosts) ↔
        x ∈ (resolveHosts "all" s).hosts := by
  intro x
  rw [resolveHosts_all_hosts s hd,
    resolveHosts_allBang_hosts g s hchars hstrip,
    resolveHosts_single_hosts g s hchars hbang hstrip hne,
    mem_dedupe, mem_dedupe, List.mem_filter]
  by_cases hall : g = "all"
  · subst hall
    rw [expandToken_all]
    constructor
    · rintro (⟨hx, _⟩ | hx) <;> exact hx
    · intro hx
      exact Or.inr hx
  · rw [expandToken_group g s members hlook hstrip hne hall]
    have hmem : ∀ y ∈ members, y ∈ s.hosts :=
      fun y hy => hsub _ (lookupA_mem _ _ _ hlook) y hy
    constructor
    · rintro (⟨hx, _⟩ | hx)
      · exact hx
      · exact hmem x hx
    · intro hx
      by_cases hxm : x ∈ members
      · exact Or.inr hxm
      · exact Or.inl ⟨hx, by simpa using hxm⟩

/-- C4 counterexample: with an explicit `[all]` group, `h2` lies in the
union of `resolve("all,!web")` and `resolve("web")` but not in
`resolve("all")`, so the union does not reconstruct `resolve("all")`. -/
theorem c4_counterexample :
    ¬ ∀ x, (x ∈ (resolveHosts "all,!web" explicitAllSummary).hosts ∨
            x ∈ (resolveHosts "web" explicitAllSummary).hosts) ↔
          x ∈ (resolveHosts "all" explicitAllSummary).hosts := by
  intro h
  have hx := (h "h2").mp (Or.inr (by decide))
  exact absurd hx (by decide)

/-- C4 witness at the scenario inventory with g = `web`. -/
theorem c4_witness :
    ("b.example.com" ∈ (resolveHosts ("all,!" ++ "web") demoSummary).hosts ∨
        "b.example.com" ∈ (resolveHosts "web" demoSummary).hosts) ↔
      "b.example.com" ∈ (resolveHosts "all" demoSummary).hosts :=
  c4_exclusion_union demoSummary "web" ["a.example.com", "b.example.com"]
    (by decide) (by decide) (by decide) (by decide) (by decide) (by decide)
    (by decide) "b.example.com"

/-! ## C5: the hard error message -/

theorem strContainsSub_refl (n : String) : strContainsSub n n :=
  ⟨"", "", by rw [String.empty_append, String.append_empty]⟩

theorem strContainsSub_appendR (a b n : String) (h : strContainsSub a n) :
    strContainsSub (a ++ b) n := by
  obtain ⟨p, q, rfl⟩ := h
  exact ⟨p, q ++ b, by rw [String.append_assoc (p ++ n) q b]⟩

theorem strContainsSub_appendL (a b n : String) (h : strContainsSub b n) :
    strContainsSub (a ++ b) n := by
  obtain ⟨p, q, rfl⟩ := h
  exact ⟨a ++ p, q, by rw [String.append_assoc a p n, String.append_assoc a (p ++ n) q]⟩

theorem joinSep_contains (sep t : String) :
    ∀ l : List String, t ∈ l → strContainsSub (joinSep sep l) t := by
  intro l
  induction l with
  | nil => intro h; simp at h
  | cons x xs ih =>
      intro ht
      cases xs with
      | nil =>
          rcases List.mem_singleton.mp ht with rfl
          exact strContainsSub_refl t
      | cons y ys =>
          rw [joinSep]
          rcases List.mem_cons.mp ht with rfl | ht
          · exact strContainsSub_appendR _ _ _ (strContainsSub_appendR _ _ _ (strContainsSub_refl t))
          · exact strContainsSub_appendL _ _ _ (ih ht)

theorem foldl_append_shape (f : String → String → String)
    (hf : ∀ acc t, ∃ add, f acc t = acc ++ add) :
    ∀ (l : List String) (acc : String), ∃ suf, l.foldl f acc = acc ++ suf := by
  intro l
  induction l with
  | nil => intro acc; exact ⟨"", by rw [List.foldl_nil, String.append_empty]⟩
  | cons t rest ih =>
      intro acc
      obtain ⟨add, hadd⟩ := hf acc t
      obtain ⟨suf, hsuf⟩ := ih (acc ++ add)
      exact ⟨add ++ suf, by rw [List.foldl_cons, hadd, hsuf, String.append_assoc]⟩

theorem emSuggest_shape (s : InventorySummary) (acc token : String) :
    ∃ add, emSuggest s acc token = acc ++ add := by
  rw [emSuggest]
  split
  · dsimp only
    split
    · exact ⟨_, by rw [String.append_assoc, String.append_assoc, String.append_assoc,
        String.append_assoc]⟩
    · exact ⟨"", (String.append_empty acc).symm⟩
  · exact ⟨"", (String.append_empty acc).symm⟩

theorem emM1_shape (selector : String) (s : InventorySummary) :
    ∃ u, emM1 selector s = emBase selector ++ u ∧
      (unmatchedTokens selector s ≠ [] →
        ∀ t ∈ unmatchedTokens selector s, strContainsSub (emBase selector ++ u) t) := by
  rw [emM1]
  split
  · next hu => exact ⟨"", (String.append_empty _).symm, fun hne => absurd hu hne⟩
  · next hu =>
      obtain ⟨suf, hsuf⟩ := foldl_append_shape (emSuggest s) (emSuggest_shape s)
        (unmatchedTokens selector s)
        (emBase selector ++ ". Unmatched tokens: " ++ joinComma (unmatchedTokens selector s))
      refine ⟨". Unmatched tokens: " ++ joinComma (unmatchedTokens selector s) ++ suf,
        ?_, ?_⟩
      · rw [hsuf, String.append_assoc (emBase selector), String.append_assoc]
      · intro _ t ht
        rw [← String.append_assoc, ← String.append_assoc]
        exact strContainsSub_appendR _ _ _
          (strContainsSub_appendL _ _ _ (joinSep_contains ", " t _ ht))

theorem emM2_shape (selector : String) (s : InventorySummary) :
    ∃ v, emM2 selector s = emM1 selector s ++ v := by
  rw [emM2]
  split
  · exact ⟨_, rfl⟩
  · exact ⟨"", (String.append_empty _).symm⟩

theorem emM3_shape (selector : String) (s : InventorySummary) :
    ∃ w, emM3 selector s = emM2 selector s ++ w ∧
      ∀ gname ∈ keysA s.groups, strContainsSub (emM2 selector s ++ w) gname := by
  rw [emM3]
  split
  · refine ⟨". Available groups: " ++ joinComma (keysA s.groups),
      by rw [String.append_assoc], ?_⟩
    intro gname hg
    rw [← String.append_assoc]
    exact strContainsSub_appendL _ _ _ (joinSep_contains ", " gname _ hg)
  · next hk =>
      refine ⟨"", (String.append_empty _).symm, ?_⟩
      intro gname hg
      rw [not_not] at hk
      rw [hk] at hg
      simp at hg

theorem errorMessage_shape (selector : String) (s : InventorySummary) :
    ∃ z, errorMessage selector s = emM3 selector s ++ z ∧
      (s.hosts.take 5 ≠ [] →
        strContainsSub (emM3 selector s ++ z) (joinComma (s.hosts.take 5))) := by
  rw [errorMessage]
  split
  · refine ⟨". Sample hosts: " ++ joinComma (s.hosts.take 5),
      by rw [String.append_assoc], ?_⟩
    intro _
    rw [← String.append_assoc]
    exact strContainsSub_appendL _ _ _ (strContainsSub_refl _)
  · next hk => exact ⟨"", (String.append_empty _).symm, fun hne => absurd (not_not.mp hk) hne⟩

theorem emBase_contains_selector (selector : String) :
    strContainsSub (emBase selector) selector :=
  ⟨"No hosts matched selector '", "'", rfl⟩

theorem emBase_contains_noHostsMatched (selector : String) :
    strContainsSub (emBase selector) "No hosts matched" := by
  refine ⟨"", " selector '" ++ selector ++ "'", ?_⟩
  rw [emBase, String.empty_append]
  rw [show (" selector '" ++ selector ++ "'" : String) = " selector '" ++ (selector ++ "'") from
    String.append_assoc _ _ _]
  rw [← String.append_assoc "No hosts matched" " selector '" (selector ++ "'")]
  rw [show ("No hosts matched" ++ " selector '" : String) = "No hosts matched selector '" from rfl]
  rw [String.append_assoc]

theorem errorMessage_contains (selector : String) (s : InventorySummary)
    (n : String) (h : strContainsSub (emBase selector) n) :
    strContainsSub (errorMessage selector s) n := by
  obtain ⟨u, hu, _⟩ := emM1_shape selector s
  obtain ⟨v, hv⟩ := emM2_shape selector s
  obtain ⟨w, hw, _⟩ := emM3_shape selector s
  obtain ⟨z, hz, _⟩ := errorMessage_shape selector s
  rw [hz, hw, hv, hu]
  exact strContainsSub_appendR _ _ _ (strContainsSub_appendR _ _ _
    (strContainsSub_appendR _ _ _ (strContainsSub_appendR _ _ _ h)))

theorem errorMessage_contains_m1 (selector : String) (s : InventorySummary)
    (n : String) (h : strContainsSub (emM1 selector s) n) :
    strContainsSub (errorMessage selector s) n := by
  obtain ⟨v, hv⟩ := emM2_shape selector s
  obtain ⟨w, hw, _⟩ := emM3_shape selector s
  obtain ⟨z, hz, _⟩ := errorMessage_shape selector s
  rw [hz, hw, hv]
  exact strContainsSub_appendR _ _ _ (strContainsSub_appendR _ _ _
    (strContainsSub_appendR _ _ _ h))

/-- C5: whenever resolution of a selector filters down to the empty set,
`resolve_hosts` returns a hard error: no hosts, `validated` false, and a
message that carries the raw selector, the words `No hosts matched`, every
unmatched inclusion token, every known group name, and at most five sample
host names. -/
theorem c5_empty_selector_error (s : InventorySummary) (selector : String)
    (hempty : finalHosts selector s = []) :
    (resolveHosts selector s).hosts = [] ∧
      (resolveHosts selector s).error = some (errorMessage selector s) ∧
      validatedB (resolveHosts selector s) = false ∧
      strContainsSub (errorMessage selector s) selector ∧
      strContainsSub (errorMessage selector s) "No hosts matched" ∧
      (∀ t ∈ unmatchedTokens selector s, strContainsSub (errorMessage selector s) t) ∧
      (∀ gname ∈ keysA s.groups, strContainsSub (errorMessage selector s) gname) ∧
      (s.hosts.take 5).length ≤ 5 ∧
      (s.hosts.take 5 ≠ [] →
        strContainsSub (errorMessage selector s) (joinComma (s.hosts.take 5))) := by
  have hres : resolveHosts selector s =
      { selector := selector, hosts := [], error := some (errorMessage selector s) } := by
    rw [resolveHosts]
    rw [if_pos hempty]
  refine ⟨by rw [hres], by rw [hres], by rw [hres]; rfl, ?_, ?_, ?_, ?_, ?_, ?_⟩
  · exact errorMessage_contains selector s selector (emBase_contains_selector selector)
  · exact errorMessage_contains selector s _ (emBase_contains_noHostsMatched selector)
  · intro t ht
    have hne : unmatchedTokens selector s ≠ [] := by
      intro hcon
      rw [hcon] at ht
      simp at ht
    obtain ⟨u, hu, hcont⟩ := emM1_shape selector s
    exact errorMessage_contains_m1 selector s t (hu ▸ hcont hne t ht)
  · intro gname hg
    obtain ⟨w, hw, hcont⟩ := emM3_shape selector s
    obtain ⟨z, hz, _⟩ := errorMessage_shape selector s
    rw [hz, hw]
    exact strContainsSub_appendR _ _ _ (hcont gname hg)
  · exact List.length_take_le 5 s.hosts
  · intro hne
    obtain ⟨z, hz, hcont⟩ := errorMessage_shape selector s
    rw [hz]
    exact hz ▸ hcont hne

/-- C5 witness: scenario C — `"bogus-group"` against the inventory
declaring `web` yields an invalid result whose message mentions `web`. -/
theorem c5_witness :
    validatedB (resolveHosts "bogus-group" demoSummary) = false ∧
      strContainsSub (errorMessage "bogus-group" demoSummary) "web" :=
  ⟨(c5_empty_selector_error demoSummary "bogus-group" (by decide)).2.2.1,
   (c5_empty_selector_error demoSummary "bogus-group" (by decide)).2.2.2.2.2.2.1
     "web" (by decide)⟩

/-! ## C6: payload extraction scenarios -/

/-- C6 counterexample: the payload extractor `_extract_payload` returns no
payload for the bare `{"results":{}}` string — only the sentinel strategy is
implemented there, so the direct-parse half of the claim fails on it. -/
theorem c6_counterexample : extract_payload bareResultsJson = none := rfl

/-- C6 (amended): `_extract_payload` recovers `{"results":{}}` from the
sentinel-wrapped blob and fails soft (`none`, no exception) on the bare JSON
string; the bare string is instead recovered by the direct-parse format
(format 1) of the slurp cascade in src/runner.py. -/
theorem c6_extractor_scenarios :
    extract_payload sentinelBlob = some resultsEmptyPayload ∧
      extract_payload bareResultsJson = none ∧
      slurpFormat1 bareResultsJson = some resultsEmptyPayload ∧
      slurpFindJson bareResultsJson = some resultsEmptyPayload :=
  ⟨rfl, rfl, rfl, rfl⟩

/-! ## Payload normalisation lemmas -/

theorem parseFold_spec :
    ∀ (entries : List (String × RisuPluginData)) (p f : Nat)
      (is : List DiagnosticIssue),
      entries.foldl parseStep (p, f, is) =
        (p + entries.countP entryPasses,
         f + entries.countP (fun e => !entryPasses e),
         is ++ entries.filterMap
           (fun e => if entryPasses e then none
                     else some (mkIssue e.1 e.2 (entryRc e.2)))) := by
  intro entries
  induction entries with
  | nil => intro p f is; simp
  | cons e rest ih =>
      intro p f is
      rw [List.foldl_cons]
      by_cases he : entryPasses e
      · rw [show parseStep (p, f, is) e = (p + 1, f, is) from by simp [parseStep, he]]
        rw [ih]
        simp [List.countP_cons, he]
        omega
      · rw [show parseStep (p, f, is) e =
            (p, f + 1, is ++ [mkIssue e.1 e.2 (entryRc e.2)]) from by simp [parseStep, he]]
        rw [ih]
        simp [List.countP_cons, he]
        omega

theorem runnerFold_spec :
    ∀ (entries : List (String × RisuPluginData)) (p f : Nat)
      (is : List RunnerIssue),
      entries.foldl runnerParseStep (p, f, is) =
        (p + entries.countP entryPasses,
         f + entries.countP (fun e => !entryPasses e),
         is ++ entries.filterMap
           (fun e => if entryPasses e then none
                     else some (mkRunnerIssue e.1 e.2 (entryRc e.2)))) := by
  intro entries
  induction entries with
  | nil => intro p f is; simp
  | cons e rest ih =>
      intro p f is
      rw [List.foldl_cons]
      by_cases he : entryPasses e
      · rw [show runnerParseStep (p, f, is) e = (p + 1, f, is) from by
          simp [runnerParseStep, he]]
        rw [ih]
        simp [List.countP_cons, he]
        omega
      · rw [show runnerParseStep (p, f, is) e =
            (p, f + 1, is ++ [mkRunnerIssue e.1 e.2 (entryRc e.2)]) from by
          simp [runnerParseStep, he]]
        rw [ih]
        simp [List.countP_cons, he]
        omega

theorem parse_risu_payload_passed (host : String) (payload : RisuPayload) :
    (parse_risu_payload host payload).passed = payload.results.countP entryPasses := by
  show (payload.results.foldl parseStep (0, 0, [])).1 = _
  rw [parseFold_spec]
  simp

theorem parse_risu_payload_failed (host : String) (payload : RisuPayload) :
    (parse_risu_payload host payload).failed =
      payload.results.countP (fun e => !entryPasses e) := by
  show (payload.results.foldl parseStep (0, 0, [])).2.1 = _
  rw [parseFold_spec]
  simp

theorem parse_risu_payload_issues (host : String) (payload : RisuPayload) :
    (parse_risu_payload host payload).issues =
      payload.results.filterMap
        (fun e => if entryPasses e then none
                  else some (mkIssue e.1 e.2 (entryRc e.2))) := by
  show (payload.results.foldl parseStep (0, 0, [])).2.2 = _
  rw [parseFold_spec]
  rfl

theorem runner_parse_payload_passed (host : String) (payload : RisuPayload) :
    (runner_parse_payload host payload).passed = payload.results.countP entryPasses := by
  show (payload.results.foldl runnerParseStep (0, 0, [])).1 = _
  rw [runnerFold_spec]
  simp

theorem runner_parse_payload_failed (host : String) (payload : RisuPayload) :
    (runner_parse_payload host payload).failed =
      payload.results.countP (fun e => !entryPasses e) := by
  show (payload.results.foldl runnerParseStep (0, 0, [])).2.1 = _
  rw [runnerFold_spec]
  simp

theorem countP_add_countP_not {α : Type} (p : α → Bool) (l : List α) :
    l.countP p + l.countP (fun x => !p x) = l.length := by
  induction l with
  | nil => rfl
  | cons x xs ih =>
      by_cases h : p x <;> simp [List.countP_cons, h] <;> omega

/-- C7: nonzero return codes are thresholded into severities exactly at
20/10/5, entries with `rc` absent or `0` are counted as passes and produce
no issue, every issue carries the severity derived from its nonzero `rc`,
and the spec's sample codes 3/7/15/25 land on minor/warning/major/critical. -/
theorem c7_severity_thresholds :
    (∀ rc : Int, rc ≠ 0 →
      ((derive_severity (some rc) = "critical" ↔ 20 ≤ rc) ∧
       (derive_severity (some rc) = "major" ↔ 10 ≤ rc ∧ rc < 20) ∧
       (derive_severity (some rc) = "warning" ↔ 5 ≤ rc ∧ rc < 10) ∧
       (derive_severity (some rc) = "minor" ↔ rc < 5))) ∧
    (∀ (host : String) (payload : RisuPayload),
      (parse_risu_payload host payload).passed = payload.results.countP entryPasses ∧
      ∀ i ∈ (parse_risu_payload host payload).issues,
        ∃ r : Int, i.rc = some r ∧ r ≠ 0 ∧ i.severity = derive_severity (some r)) ∧
    derive_severity (some 3) = "minor" ∧ derive_severity (some 7) = "warning" ∧
    derive_severity (some 15) = "major" ∧ derive_severity (some 25) = "critical" := by
  refine ⟨?_, ?_, by decide, by decide, by decide, by decide⟩
  · intro rc hrc
    simp only [derive_severity]
    rw [if_neg hrc]
    split_ifs with h1 h2 h3 <;> refine ⟨?_, ?_, ?_, ?_⟩ <;> simp <;> omega
  · intro host payload
    refine ⟨parse_risu_payload_passed host payload, ?_⟩
    intro i hi
    rw [parse_risu_payload_issues] at hi
    obtain ⟨e, he, hmk⟩ := List.mem_filterMap.mp hi
    by_cases hp : entryPasses e
    · rw [if_pos hp] at hmk
      cases hmk
    · rw [if_neg hp] at hmk
      rcases hmk
      rcases hrc : entryRc e.2 with _ | r
      · rw [entryPasses, hrc] at hp
        simp at hp
      · refine ⟨r, rfl, ?_, rfl⟩
        intro hr0
        rw [entryPasses, hrc] at hp
        simp [hr0] at hp

/-- C7 witness at the spec's sample return codes using the general
threshold theorem. -/
theorem c7_witness :
    derive_severity (some 25) = "critical" ∧ derive_severity (some 12) = "major" :=
  ⟨(c7_severity_thresholds.1 25 (by decide)).1.mpr (by decide),
   (c7_severity_thresholds.1 12 (by decide)).2.1.mpr (by decide)⟩

/-- C9: `skipped` is computed as `max(total - passed - failed, 0)`, hence
never negative, and an empty `results` map yields `total = 0` and
`skipped = 0`; this holds in both normalizer iterations. -/
theorem c9_skipped_formula (host : String) (payload : RisuPayload) :
    ((parse_risu_payload host payload).skipped =
        max (((parse_risu_payload host payload).total_checks : Int) -
          (parse_risu_payload host payload).passed -
          (parse_risu_payload host payload).failed) 0 ∧
      0 ≤ (parse_risu_payload host payload).skipped ∧
      (payload.results = [] →
        (parse_risu_payload host payload).total_checks = 0 ∧
        (parse_risu_payload host payload).skipped = 0)) ∧
    ((runner_parse_payload host payload).skipped =
        max (((runner_parse_payload host payload).total_checks : Int) -
          (runner_parse_payload host payload).passed -
          (runner_parse_payload host payload).failed) 0 ∧
      0 ≤ (runner_parse_payload host payload).skipped ∧
      (payload.results = [] →
        (runner_parse_payload host payload).total_checks = 0 ∧
        (runner_parse_payload host payload).skipped = 0)) := by
  refine ⟨⟨rfl, le_max_right _ _, ?_⟩, ⟨rfl, le_max_right _ _, ?_⟩⟩ <;>
    · intro hres
      constructor
      · show payload.results.length = 0
        rw [hres]
        rfl
      · show max ((payload.results.length : Int) - _ - _) 0 = 0
        rw [hres]
        rfl

/-- C9 witness: scenario D payload and an empty payload. -/
theorem c9_witness :
    0 ≤ (parse_risu_payload "node" scenarioDPayload).skipped ∧
      (parse_risu_payload "node" (RisuPayload.mk [] [])).total_checks = 0 ∧
      (parse_risu_payload "node" (RisuPayload.mk [] [])).skipped = 0 :=
  ⟨(c9_skipped_formula "node" scenarioDPayload).1.2.1,
   ((c9_skipped_formula "node" (RisuPayload.mk [] [])).1.2.2 rfl).1,
   ((c9_skipped_formula "node" (RisuPayload.mk [] [])).1.2.2 rfl).2⟩

/-- C10: every `results` entry is classified as exactly one of pass or fail,
so `passed + failed = total_checks` and the reported `skipped` count is
always exactly 0, in both normalizer iterations. -/
theorem c10_passed_failed_partition (host : String) (payload : RisuPayload) :
    ((parse_risu_payload host payload).passed +
        (parse_risu_payload host payload).failed =
        (parse_risu_payload host payload).total_checks ∧
      (parse_risu_payload host payload).skipped = 0) ∧
    ((runner_parse_payload host payload).passed +
        (runner_parse_payload host payload).failed =
        (runner_parse_payload host payload).total_checks ∧
      (runner_parse_payload host payload).skipped = 0) := by
  have h1 : (parse_risu_payload host payload).passed +
      (parse_risu_payload host payload).failed =
      (parse_risu_payload host payload).total_checks := by
    rw [parse_risu_payload_passed, parse_risu_payload_failed]
    exact countP_add_countP_not entryPasses payload.results
  have h2 : (runner_parse_payload host payload).passed +
      (runner_parse_payload host payload).failed =
      (runner_parse_payload host payload).total_checks := by
    rw [runner_parse_payload_passed, runner_parse_payload_failed]
    exact countP_add_countP_not entryPasses payload.results
  refine ⟨⟨h1, ?_⟩, ⟨h2, ?_⟩⟩
  · show max (((parse_risu_payload host payload).total_checks : Int) -
      (parse_risu_payload host payload).passed -
      (parse_risu_payload host payload).failed) 0 = 0
    rw [← h1]
    push_cast
    rw [show ((parse_risu_payload host payload).passed : Int) +
        (parse_risu_payload host payload).failed -
        (parse_risu_payload host payload).passed -
        (parse_risu_payload host payload).failed = 0 from by ring]
    rfl
  · show max (((runner_parse_payload host payload).total_checks : Int) -
      (runner_parse_payload host payload).passed -
      (runner_parse_payload host payload).failed) 0 = 0
    rw [← h2]
    push_cast
    rw [show ((runner_parse_payload host payload).passed : Int) +
        (runner_parse_payload host payload).failed -
        (runner_parse_payload host payload).passed -
        (runner_parse_payload host payload).failed = 0 from by ring]
    rfl

/-- C10 witness at the scenario D payload. -/
theorem c10_witness :
    (parse_risu_payload "node" scenarioDPayload).passed +
        (parse_risu_payload "node" scenarioDPayload).failed =
        (parse_risu_payload "node" scenarioDPayload).total_checks ∧
      (parse_risu_payload "node" scenarioDPayload).skipped = 0 :=
  (c10_passed_failed_partition "node" scenarioDPayload).1

/-! ## C8: run status -/

/-- C8 (amended): for reports aggregated by `DiagnosticsRunner.run`
(src/runner.py), the status is `completed` iff there are results and no
errors, `partial` iff there are results and errors, and `failed` iff there
are no results.  (The CLI fallback aggregator in
src/risu_insights/diagnostics.py instead reports `failed` whenever errors
are present, even with results.) -/
theorem c8_run_status (results : List HostDiagnostics) (errors : List String) :
    (runReportStatus results errors = "completed" ↔ results ≠ [] ∧ errors = []) ∧
      (runReportStatus results errors = "partial" ↔ results ≠ [] ∧ errors ≠ []) ∧
      (runReportStatus results errors = "failed" ↔ results = []) := by
  rw [runReportStatus]
  split_ifs with h1 h2 <;>
    refine ⟨?_, ?_, ?_⟩ <;> simp_all [List.isEmpty_iff]

/-- C8 counterexample: the CLI fallback produces a `failed` report whose
results list is nonempty (one successful host next to one error), refuting
the claim's `failed ↔ no results` for that report producer. -/
theorem c8_counterexample :
    cliFallbackStatus [oneHostResult] ["h2: RISU CLI not found on control node."] =
        "failed" ∧
      ([oneHostResult] : List DiagnosticResult) ≠ [] := by
  constructor
  · rfl
  · simp

/-- C8 witness: a run with no results reports `failed`. -/
theorem c8_witness : runReportStatus [] ["boom"] = "failed" :=
  (c8_run_status [] ["boom"]).2.2.mpr rfl
